import Mathlib

/-!
Verification of the Smart-Fuel-Planner core logic (src/types.ts, src/index.tsx).

Numbers are modelled as exact rationals (`ℚ`); the haversine distance, which
uses trigonometric functions, is modelled over the reals (`ℝ`).  External
collaborators (Google Directions/Places, `Date`, `localStorage`) are modelled
as explicit parameters: the ranking pipelines take the distance function and
the raw candidate list as arguments, the history aggregator takes the
month-label formatter and the date parser as arguments, and the local store is
the list of history entries it holds.
-/

namespace SmartFuel

/-- `Location` from src/types.ts: latitude, longitude, optional display name. -/
structure Location where
  lat : ℚ
  lng : ℚ
  name : Option String := none
deriving DecidableEq

/-- `FuelType` from src/types.ts. -/
inductive FuelType where
  | petrol
  | diesel
  | hybrid
  | ev
deriving DecidableEq

/-- `MOCKED_FUEL_PRICES` from src/constants.ts (PKR per liter or per kWh). -/
def MOCKED_FUEL_PRICES : FuelType → ℚ
  | .petrol => 280
  | .diesel => 270
  | .hybrid => 280
  | .ev => 40

/-- A JavaScript number that may be `NaN`; used for the user-supplied mileage.
`NaN` compares false under every ordering comparison, which is what the
`averageMileage > 0` guard in `handlePlanTrip` sees. -/
inductive JSNum where
  | num (q : ℚ)
  | nan
deriving DecidableEq

/-- The JavaScript comparison `x > 0`: false for `NaN`. -/
def JSNum.gtZero : JSNum → Bool
  | .num q => decide (0 < q)
  | .nan => false

/-- Numeric value of a `JSNum`; only ever used under a `gtZero` guard, where the
`nan` branch is unreachable. -/
def JSNum.toRat : JSNum → ℚ
  | .num q => q
  | .nan => 0

/-- `FuelStation` from src/types.ts.  `distanceKm` is optional: it is populated
by the ranking code. -/
structure FuelStation where
  id : String
  name : String
  location : Location
  fuelPrice : ℚ
  distanceKm : Option ℚ := none
deriving DecidableEq

/-- `TripData` from src/types.ts (fields not touched by the verified logic are
kept for completeness). -/
structure TripData where
  carModel : String
  fuelType : FuelType
  averageMileage : JSNum
  startLocation : Location
  destination : Location
deriving DecidableEq

/-- `TripHistoryEntry` from src/types.ts. -/
structure TripHistoryEntry where
  id : String
  date : String
  carModel : String
  startLocationName : String
  destinationName : String
  distanceKm : ℚ
  estimatedCost : ℚ
deriving DecidableEq

/-- `MonthlyExpense` from src/types.ts. -/
structure MonthlyExpense where
  month : String
  cost : ℚ
deriving DecidableEq

/-- The cost computation of `handlePlanTrip` (src/index.tsx, lines 842-847):

```
let estimatedCost = 0;
if (data.averageMileage > 0) {
  const unitsNeeded = distanceKm / data.averageMileage;
  estimatedCost = unitsNeeded * fuelPricePerUnit;
}
```
-/
def estimatedCost (distanceKm : ℚ) (averageMileage : JSNum) (fuelPricePerUnit : ℚ) : ℚ :=
  if averageMileage.gtZero then (distanceKm / averageMileage.toRat) * fuelPricePerUnit else 0

/-- `TripResult` from src/types.ts, restricted to the fields the verified
logic produces (`estimatedTime`, `ecoTips` and `routePath` are copied from the
external collaborator and never computed). -/
structure TripResult where
  tripData : TripData
  distanceKm : ℚ
  estimatedCost : ℚ
  nearbyStations : List FuelStation
deriving DecidableEq

/-- Construction of the `TripResult` in `handlePlanTrip` (src/index.tsx,
lines 842-898), with the externally resolved route distance and station list
passed in. -/
def handlePlanTripResult (data : TripData) (distanceKm : ℚ)
    (nearbyStations : List FuelStation) : TripResult :=
  { tripData := data
    distanceKm := distanceKm
    estimatedCost := estimatedCost distanceKm data.averageMileage
      (MOCKED_FUEL_PRICES data.fuelType)
    nearbyStations := nearbyStations }

/-- `MOCKED_FUEL_STATIONS` from src/constants.ts (the fallback list). -/
def MOCKED_FUEL_STATIONS : List FuelStation :=
  [ { id := "1", name := "Shell Defence"
      location := { lat := 24.8197, lng := 67.0371, name := some "Shell Defence, Karachi" }
      fuelPrice := MOCKED_FUEL_PRICES .petrol * 0.98 }
  , { id := "2", name := "PSO Cantt"
      location := { lat := 24.8250, lng := 67.0300, name := some "PSO Cantt, Karachi" }
      fuelPrice := MOCKED_FUEL_PRICES .petrol }
  , { id := "3", name := "Total Clifton"
      location := { lat := 24.8360, lng := 67.0210, name := some "Total Clifton, Karachi" }
      fuelPrice := MOCKED_FUEL_PRICES .petrol * 1.02 }
  , { id := "4", name := "Go Petroleum DHA"
      location := { lat := 24.8050, lng := 67.0450, name := some "Go Petroleum DHA, Karachi" }
      fuelPrice := MOCKED_FUEL_PRICES .petrol * 0.95 }
  , { id := "5", name := "Hascol Korangi"
      location := { lat := 24.8210, lng := 67.0600, name := some "Hascol Korangi, Karachi" }
      fuelPrice := MOCKED_FUEL_PRICES .diesel * 0.99 }
  , { id := "6", name := "EV Charge Point Gizri"
      location := { lat := 24.8300, lng := 67.0150, name := some "EV Charge Point Gizri, Karachi" }
      fuelPrice := MOCKED_FUEL_PRICES .ev * 1.1 } ]

/-- A raw place returned by the external Places search, already carrying the
mock price assigned during conversion (the `Math.random` price factor is
abstracted as an input). -/
structure PlaceResult where
  id : String
  name : String
  location : Location
  fuelPrice : ℚ
deriving DecidableEq

/-- Conversion of a raw place into a `FuelStation` inside the `nearbySearch`
callback of `handlePlanTrip` (src/index.tsx, lines 860-875): the station's
distance from the destination is computed and populated. -/
def toStation (dist : Location → Location → ℚ) (destination : Location)
    (p : PlaceResult) : FuelStation :=
  { id := p.id, name := p.name, location := p.location, fuelPrice := p.fuelPrice
    distanceKm := some (dist destination p.location) }

/-- The filter predicate of src/index.tsx line 876:
`station.distanceKm !== undefined && station.distanceKm < 10`. -/
def withinRadius (s : FuelStation) : Bool :=
  match s.distanceKm with
  | none => false
  | some d => decide (d < 10)

/-- Whether the comparator key `a.distanceKm || Infinity` of src/index.tsx
lines 877 and 884 is `Infinity`: true when the distance is `undefined` or the
falsy value `0`. -/
def distKeyIsInf : Option ℚ → Bool
  | none => true
  | some d => decide (d = 0)

/-- The finite value of the comparator key (meaningful only when
`distKeyIsInf` is false). -/
def distKeyVal : Option ℚ → ℚ
  | none => 0
  | some d => d

/-- The ordering induced by the JavaScript comparator
`(a.distanceKm || Infinity) - (b.distanceKm || Infinity)` of src/index.tsx
lines 877 and 884 (a comparator result of `NaN`, arising as `∞ - ∞`, is
treated as `0` by `Array.prototype.sort`, so two `Infinity` keys tie). -/
def jsLeB (a b : Option ℚ) : Bool :=
  if distKeyIsInf a then distKeyIsInf b
  else if distKeyIsInf b then true
  else decide (distKeyVal a ≤ distKeyVal b)

/-- The sort relation on stations used by both station sorts. -/
def jsLe (a b : FuelStation) : Prop :=
  jsLeB a.distanceKm b.distanceKm = true

instance : DecidableRel jsLe := fun a b =>
  inferInstanceAs (Decidable (jsLeB a.distanceKm b.distanceKm = true))

/-- The primary-path station pipeline of `handlePlanTrip` (src/index.tsx,
lines 860-877): convert each place, keep stations with a defined distance
strictly below 10 km, and sort with the JavaScript comparator
(`Array.prototype.sort` with a consistent comparator is a stable sort, which
`List.insertionSort` with a reflexive total relation reproduces). -/
def primaryStations (dist : Location → Location → ℚ) (destination : Location)
    (results : List PlaceResult) : List FuelStation :=
  ((results.map (toStation dist destination)).filter withinRadius).insertionSort jsLe

/-- The ranking logic of the primary path applied to an arbitrary station list
(distance population, radius filter, sort). -/
def rankStations (dist : Location → Location → ℚ) (destination : Location)
    (stations : List FuelStation) : List FuelStation :=
  ((stations.map fun s => { s with distanceKm := some (dist destination s.location) }).filter
    withinRadius).insertionSort jsLe

/-- The fallback-path pipeline of `handlePlanTrip` (src/index.tsx, lines
881-884): populate each mock station's distance from the destination and sort
with the same comparator.  Note that, unlike the primary path, no radius
filter is applied. -/
def fallbackStations (dist : Location → Location → ℚ) (destination : Location) :
    List FuelStation :=
  (MOCKED_FUEL_STATIONS.map fun s =>
    { s with distanceKm := some (dist destination s.location) }).insertionSort jsLe

/-- The `forEach`-based cheapest-station selection of `MapPage`
(src/index.tsx, lines 524-529): start from `null`, replace the current best
whenever a station's price is strictly lower. -/
def cheapestStationForEach (stations : List FuelStation) : Option FuelStation :=
  stations.foldl
    (fun cheapest station =>
      match cheapest with
      | none => some station
      | some c => if station.fuelPrice < c.fuelPrice then some station else some c)
    none

/-- The `reduce`-based cheapest-station selection of `MapPage`
(src/index.tsx, line 582):
`stations.reduce((prev, curr) => prev.fuelPrice < curr.fuelPrice ? prev : curr, stations[0])`;
on an empty list the initial value `stations[0]` is `undefined` and no station
is selected. -/
def cheapestStationReduce (stations : List FuelStation) : Option FuelStation :=
  match stations with
  | [] => none
  | s0 :: _ =>
    some (stations.foldl
      (fun prev curr => if prev.fuelPrice < curr.fuelPrice then prev else curr) s0)

/-- The ordered key set of a JavaScript object built by repeated
`obj[k] = ...` assignments: string keys in first-insertion order. -/
def objectKeys (labels : List String) : List String :=
  labels.foldl (fun ks k => if k ∈ ks then ks else ks ++ [k]) []

/-- One step of the grouping loop of `calculateMonthlyExpenses`
(src/index.tsx, line 620): `monthly[monthYear] = (monthly[monthYear] || 0) + trip.estimatedCost`.
The JavaScript object is modelled as an association list in key-insertion
order. -/
def updateMonthly (monthly : List (String × ℚ)) (label : String) (cost : ℚ) :
    List (String × ℚ) :=
  if monthly.any (fun p => p.1 == label) then
    monthly.map (fun p => if p.1 == label then (p.1, p.2 + cost) else p)
  else
    monthly ++ [(label, cost)]

/-- The grouping loop of `calculateMonthlyExpenses` (src/index.tsx, lines
616-621), with the locale month formatting
`new Date(trip.date).toLocaleString('default', ...)` abstracted as the
function `monthLabel`. -/
def monthlyDict (monthLabel : String → String) (history : List TripHistoryEntry) :
    List (String × ℚ) :=
  history.foldl (fun m trip => updateMonthly m (monthLabel trip.date) trip.estimatedCost) []

/-- `calculateMonthlyExpenses` from src/index.tsx (lines 615-628): group by
month label, then sort by the parsed date of the label
(`new Date(a.month).getTime()`, abstracted as `parseMonth`). -/
def calculateMonthlyExpenses (monthLabel : String → String) (parseMonth : String → ℤ)
    (history : List TripHistoryEntry) : List MonthlyExpense :=
  ((monthlyDict monthLabel history).map fun p =>
    { month := p.1, cost := p.2 : MonthlyExpense }).insertionSort
    (fun a b => parseMonth a.month ≤ parseMonth b.month)

/-- The sum of the costs of the history entries carrying a given month label;
the specification-side description of one group's total. -/
def sumForLabel (monthLabel : String → String) (history : List TripHistoryEntry)
    (label : String) : ℚ :=
  ((history.filter fun trip => monthLabel trip.date == label).map
    (fun trip => trip.estimatedCost)).sum

/-- JavaScript `x || y` on an optional string: `y` is taken when `x` is
`undefined` or the falsy empty string. -/
def orFalsy (x : Option String) (y : String) : String :=
  match x with
  | none => y
  | some s => if s = "" then y else s

/-- `handleSaveTrip` (src/index.tsx, lines 922-938): build the new history
entry from the trip result (`Date.now()` and `new Date().toLocaleString()` are
passed in as `idNow`/`dateNow`).  The name defaults use the JavaScript
`... || 'Unknown'`, which also replaces a present empty string. -/
def mkHistoryEntry (idNow dateNow : String) (result : TripResult) : TripHistoryEntry :=
  { id := idNow
    date := dateNow
    carModel := result.tripData.carModel
    startLocationName := orFalsy result.tripData.startLocation.name "Unknown"
    destinationName := orFalsy result.tripData.destination.name "Unknown"
    distanceKm := result.distanceKm
    estimatedCost := result.estimatedCost }

/-- The store update of `handleSaveTrip` (src/index.tsx, lines 933-936):
read the stored history (`none` models an absent `tripHistory` key, parsed as
`[]`), append the new entry, write the result back.  The returned list is
what `HistoryPage` (src/index.tsx, lines 606-613) parses on the next read. -/
def handleSaveTrip (stored : Option (List TripHistoryEntry))
    (historyEntry : TripHistoryEntry) : List TripHistoryEntry :=
  stored.getD [] ++ [historyEntry]

/-- Degrees to radians, the `toRad` helper of `calculateDistance`
(src/index.tsx, line 942). -/
noncomputable def toRad (value : ℚ) : ℝ :=
  (value : ℝ) * Real.pi / 180

/-- JavaScript's `Math.atan2(y, x)`. -/
noncomputable def atan2 (y x : ℝ) : ℝ :=
  if 0 < x then Real.arctan (y / x)
  else if x < 0 then
    (if 0 ≤ y then Real.arctan (y / x) + Real.pi else Real.arctan (y / x) - Real.pi)
  else if 0 < y then Real.pi / 2
  else if y < 0 then -(Real.pi / 2)
  else 0

/-- The intermediate value `a` of `calculateDistance` (src/index.tsx, lines
950-952), with the locals `dLat = toRad(loc2.lat - loc1.lat)`,
`dLon = toRad(loc2.lng - loc1.lng)`, `lat1 = toRad(loc1.lat)` and
`lat2 = toRad(loc2.lat)` substituted in. -/
noncomputable def haversineA (loc1 loc2 : Location) : ℝ :=
  Real.sin (toRad (loc2.lat - loc1.lat) / 2) * Real.sin (toRad (loc2.lat - loc1.lat) / 2) +
    Real.sin (toRad (loc2.lng - loc1.lng) / 2) * Real.sin (toRad (loc2.lng - loc1.lng) / 2) *
      Real.cos (toRad loc1.lat) * Real.cos (toRad loc2.lat)

/-- `calculateDistance` from src/index.tsx (lines 941-955): haversine
distance `R * c` with Earth radius `R = 6371` km and
`c = 2 * atan2(sqrt(a), sqrt(1 - a))`. -/
noncomputable def calculateDistance (loc1 loc2 : Location) : ℝ :=
  6371 * (2 * atan2 (Real.sqrt (haversineA loc1 loc2)) (Real.sqrt (1 - haversineA loc1 loc2)))

/-- Specification-side description of the best-price mark: the first
occurrence, in list order, of a minimum-price entry.  Stated from the claim,
for comparison with the two code-side selections. -/
def firstMinByPrice : List FuelStation → Option FuelStation
  | [] => none
  | s :: t =>
    match firstMinByPrice t with
    | none => some s
    | some c => if c.fuelPrice < s.fuelPrice then some c else some s

/-- Specification-side description of the selection the `reduce` on
src/index.tsx line 582 actually performs: the last occurrence, in list order,
of a minimum-price entry. -/
def lastMinByPrice : List FuelStation → Option FuelStation
  | [] => none
  | s :: t =>
    match lastMinByPrice t with
    | none => some s
    | some c => if s.fuelPrice < c.fuelPrice then some s else some c

/-- The station ranker exactly as claim C2 states it: keep the candidates
whose distance is defined and does not exceed the radius threshold, populate
the distance, and sort ascending by distance (stable).  Stated from the
claim, for comparison with `primaryStations`. -/
def claimRanker (dist : Location → Location → ℚ) (radius : ℚ) (destination : Location)
    (results : List PlaceResult) : List FuelStation :=
  ((results.map (toStation dist destination)).filter fun s =>
    match s.distanceKm with
    | none => false
    | some d => decide (d ≤ radius)).insertionSort
    (fun a b => a.distanceKm.getD 0 ≤ b.distanceKm.getD 0)

/-! Concrete inputs used by the per-claim instances, counterexamples and
witnesses. -/

/-- A reference destination. -/
def locO : Location := { lat := 0, lng := 0 }

/-- Candidate coordinate 1. -/
def locA : Location := { lat := 0, lng := 1 }

/-- Candidate coordinate 2. -/
def locB : Location := { lat := 0, lng := 2 }

/-- Candidate coordinate 3. -/
def locC : Location := { lat := 0, lng := 3 }

/-- Candidate place at `locA`. -/
def placeA : PlaceResult := { id := "a", name := "Station A", location := locA, fuelPrice := 280 }

/-- Candidate place at `locB`. -/
def placeB : PlaceResult := { id := "b", name := "Station B", location := locB, fuelPrice := 281 }

/-- Candidate place at `locC`. -/
def placeC : PlaceResult := { id := "c", name := "Station C", location := locC, fuelPrice := 282 }

/-- Distance assignment placing `placeA`, `placeB`, `placeC` at 2 km, 15 km
and 4 km from the reference (the instance named in claim C2). -/
def distTwoFifteenFour : Location → Location → ℚ := fun _ l =>
  if l = locA then 2 else if l = locB then 15 else if l = locC then 4 else 1

/-- Distance assignment placing `placeA`, `placeB`, `placeC` at 0 km, 3 km
and 10 km from the reference (exercises both the strict 10 km boundary and
the zero-distance comparator key). -/
def distZeroThreeTen : Location → Location → ℚ := fun _ l =>
  if l = locA then 0 else if l = locB then 3 else if l = locC then 10 else 1

/-- Distance assignment placing `placeA` at exactly 0 km and `placeB` at
2 km from the reference. -/
def distZeroTwo : Location → Location → ℚ := fun _ l => if l = locA then 0 else 2

/-- Distance assignment placing every station at 12 km from the reference. -/
def distTwelve : Location → Location → ℚ := fun _ _ => 12

/-- Distance assignment placing every station at 1 km from the reference. -/
def distOne : Location → Location → ℚ := fun _ _ => 1

/-- Distance assignment placing the first mock station (`Shell Defence`) at
exactly 0 km and every other station at 1 km. -/
def distMockZero : Location → Location → ℚ := fun _ l =>
  if l.name = some "Shell Defence, Karachi" then 0 else 1

/-- Two distinct stations sharing the same unit price (for the tie behaviour
of the best-price selections). -/
def stationP1 : FuelStation :=
  { id := "p1", name := "Tie One", location := locA, fuelPrice := 280 }

/-- See `stationP1`. -/
def stationP2 : FuelStation :=
  { id := "p2", name := "Tie Two", location := locB, fuelPrice := 280 }

/-- The three history entries of the example in claim C6. -/
def exampleHistory : List TripHistoryEntry :=
  [ { id := "h1", date := "2024-01-05", carModel := "Car", startLocationName := "S",
      destinationName := "D", distanceKm := 10, estimatedCost := 100 }
  , { id := "h2", date := "2024-01-20", carModel := "Car", startLocationName := "S",
      destinationName := "D", distanceKm := 12, estimatedCost := 50 }
  , { id := "h3", date := "2024-02-01", carModel := "Car", startLocationName := "S",
      destinationName := "D", distanceKm := 9, estimatedCost := 75 } ]

/-- The JavaScript locale month formatting
`new Date(d).toLocaleString('default', { month: 'short', year: 'numeric' })`
on the three dates of the example in claim C6. -/
def exampleMonthLabel : String → String := fun d =>
  if d = "2024-01-05" then "Jan 2024"
  else if d = "2024-01-20" then "Jan 2024"
  else if d = "2024-02-01" then "Feb 2024"
  else d

/-- The JavaScript date parsing `new Date(label).getTime()` (milliseconds
since the epoch) on the two month labels of the example in claim C6. -/
def exampleParseMonth : String → ℤ := fun l =>
  if l = "Jan 2024" then 1704067200000 else 1706745600000

/-! Theorems. -/

/-- Claim C1, counterexample: with mileage `0` (and likewise `-1`), the cost
estimator raises no `InvalidInput` condition — it produces the numeric result
`0`.  (`estimatedCost` is the total function the source computes; no error
path exists.) -/
theorem claim_C1_counterexample :
    estimatedCost 100 (JSNum.num 0) 280 = 0 ∧ estimatedCost 100 (JSNum.num (-1)) 280 = 0 := by
  decide

/-- Claim C1 (amended): when the supplied mileage is not strictly positive,
the estimator does not fail; the cost computation is skipped and the
estimated cost is the numeric value `0`. -/
theorem claim_C1_amended (distanceKm fuelPricePerUnit mileage : ℚ) (h : mileage ≤ 0) :
    estimatedCost distanceKm (JSNum.num mileage) fuelPricePerUnit = 0 := by
  have hg : (JSNum.num mileage).gtZero = false := by
    simp only [JSNum.gtZero, decide_eq_false_iff_not, not_lt]
    exact h
  simp [estimatedCost, hg]

/-- Witness for `claim_C1_amended` at mileage `-1`. -/
theorem claim_C1_amended_witness :
    ((-1 : ℚ) ≤ 0) ∧ estimatedCost 100 (JSNum.num (-1)) 280 = 0 :=
  ⟨by norm_num, claim_C1_amended 100 280 (-1) (by norm_num)⟩

/-- Claim C5: for distance ≥ 0, mileage > 0 and price > 0 the estimated cost
is exactly `(distance / mileage) * price`, and distance `0` yields cost `0`. -/
theorem claim_C5 (distanceKm mileage fuelPricePerUnit : ℚ) (hd : 0 ≤ distanceKm)
    (hm : 0 < mileage) (hp : 0 < fuelPricePerUnit) :
    estimatedCost distanceKm (JSNum.num mileage) fuelPricePerUnit =
      distanceKm / mileage * fuelPricePerUnit
    ∧ estimatedCost 0 (JSNum.num mileage) fuelPricePerUnit = 0 := by
  have hg : (JSNum.num mileage).gtZero = true := by
    simp only [JSNum.gtZero, decide_eq_true_eq]
    exact hm
  refine ⟨?_, ?_⟩ <;> simp [estimatedCost, hg, JSNum.toRat]

/-- Witness for `claim_C5` at distance 100, mileage 20, price 280. -/
theorem claim_C5_witness :
    ((0 : ℚ) ≤ 100 ∧ (0 : ℚ) < 20 ∧ (0 : ℚ) < 280)
    ∧ estimatedCost 100 (JSNum.num 20) 280 = 100 / 20 * 280
    ∧ estimatedCost 0 (JSNum.num 20) 280 = 0 :=
  ⟨⟨by norm_num, by norm_num, by norm_num⟩,
    claim_C5 100 20 280 (by norm_num) (by norm_num) (by norm_num)⟩

/-- Claim C7: saving a trip appends exactly one entry — reading the store
back gives a sequence whose last element is the appended entry and whose
preceding elements are the previously stored sequence unchanged. -/
theorem claim_C7 (stored : Option (List TripHistoryEntry)) (idNow dateNow : String)
    (result : TripResult) :
    (handleSaveTrip stored (mkHistoryEntry idNow dateNow result)).getLast? =
      some (mkHistoryEntry idNow dateNow result)
    ∧ (handleSaveTrip stored (mkHistoryEntry idNow dateNow result)).dropLast =
      stored.getD [] := by
  constructor
  · exact List.getLast?_concat _
  · simp [handleSaveTrip]

/-- Claim C9: the sort comparator gives a zero distance the key `Infinity`
(`distKeyIsInf (some 0)` is true), so on the primary path the 0 km station
`placeA` is output after the 2 km station `placeB` — the output is not
ascending by distance — and on the fallback path the 0 km mock station
(id "1") is output last. -/
theorem claim_C9 :
    distKeyIsInf (some 0) = true
    ∧ primaryStations distZeroTwo locO [placeA, placeB] =
        [toStation distZeroTwo locO placeB, toStation distZeroTwo locO placeA]
    ∧ (toStation distZeroTwo locO placeA).distanceKm = some 0
    ∧ (toStation distZeroTwo locO placeB).distanceKm = some 2
    ∧ ¬ List.Sorted (fun a b : FuelStation => a.distanceKm.getD 0 ≤ b.distanceKm.getD 0)
        (primaryStations distZeroTwo locO [placeA, placeB])
    ∧ (fallbackStations distMockZero locO).map (fun s => (s.id, s.distanceKm)) =
        [("2", some 1), ("3", some 1), ("4", some 1), ("5", some 1), ("6", some 1),
          ("1", some 0)] := by
  decide

/-- Claim C10: whenever `averageMileage > 0` is false (zero, negative or
`NaN` mileage), the planning computation raises no error and the produced
`TripResult` has `estimatedCost` exactly `0`. -/
theorem claim_C10 (data : TripData) (distanceKm : ℚ) (stations : List FuelStation)
    (h : data.averageMileage.gtZero = false) :
    (handlePlanTripResult data distanceKm stations).estimatedCost = 0 := by
  simp [handlePlanTripResult, estimatedCost, h]

/-- Witness for `claim_C10` with `NaN` mileage. -/
theorem claim_C10_witness :
    (TripData.mk "Car" FuelType.petrol JSNum.nan locO locO).averageMileage.gtZero = false
    ∧ (handlePlanTripResult (TripData.mk "Car" FuelType.petrol JSNum.nan locO locO)
        250 []).estimatedCost = 0 :=
  ⟨rfl, claim_C10 (TripData.mk "Car" FuelType.petrol JSNum.nan locO locO) 250 [] rfl⟩

/-- The `forEach` fold started from an existing candidate computes the first
minimum of the candidate followed by the remaining list. -/
theorem foldl_forEach_eq_firstMin (l : List FuelStation) : ∀ c : FuelStation,
    l.foldl
      (fun cheapest station =>
        match cheapest with
        | none => some station
        | some c' => if station.fuelPrice < c'.fuelPrice then some station else some c')
      (some c)
    = firstMinByPrice (c :: l) := by
  induction l with
  | nil => intro c; simp [firstMinByPrice]
  | cons s t ih =>
    intro c
    rw [List.foldl_cons]
    show t.foldl _ (if s.fuelPrice < c.fuelPrice then some s else some c) = _
    have hsplit : (if s.fuelPrice < c.fuelPrice then some s else some c) =
        some (if s.fuelPrice < c.fuelPrice then s else c) := by
      split_ifs <;> rfl
    rw [hsplit, ih]
    show firstMinByPrice ((if s.fuelPrice < c.fuelPrice then s else c) :: t) = _
    cases h : firstMinByPrice t with
    | none => simp only [firstMinByPrice, h]; split_ifs <;> rfl
    | some m =>
      by_cases h1 : s.fuelPrice < c.fuelPrice <;>
        by_cases h2 : m.fuelPrice < s.fuelPrice <;>
          by_cases h3 : m.fuelPrice < c.fuelPrice <;>
            simp [firstMinByPrice, h, h1, h2, h3] <;>
              first | rfl | (exfalso; linarith)

/-- The `forEach`-based selection equals the first minimum-price occurrence. -/
theorem cheapestStationForEach_eq (stations : List FuelStation) :
    cheapestStationForEach stations = firstMinByPrice stations := by
  cases stations with
  | nil => rfl
  | cons s t =>
    show t.foldl _ (some s) = _
    exact foldl_forEach_eq_firstMin t s

/-- The `reduce` fold started from an accumulator computes the last minimum
of the accumulator followed by the remaining list. -/
theorem foldl_reduce_eq_lastMin (l : List FuelStation) : ∀ a : FuelStation,
    some (l.foldl (fun prev curr => if prev.fuelPrice < curr.fuelPrice then prev else curr) a)
    = lastMinByPrice (a :: l) := by
  induction l with
  | nil => intro a; simp [lastMinByPrice]
  | cons s t ih =>
    intro a
    rw [List.foldl_cons, ih]
    show lastMinByPrice ((if a.fuelPrice < s.fuelPrice then a else s) :: t) = _
    cases h : lastMinByPrice t with
    | none => simp only [lastMinByPrice, h]; split_ifs <;> rfl
    | some m =>
      by_cases h1 : a.fuelPrice < s.fuelPrice <;>
        by_cases h2 : s.fuelPrice < m.fuelPrice <;>
          by_cases h3 : a.fuelPrice < m.fuelPrice <;>
            simp [lastMinByPrice, h, h1, h2, h3] <;>
              first | rfl | (exfalso; linarith)

/-- The `reduce`-based selection equals the last minimum-price occurrence. -/
theorem cheapestStationReduce_eq (stations : List FuelStation) :
    cheapestStationReduce stations = lastMinByPrice stations := by
  cases stations with
  | nil => rfl
  | cons s0 t =>
    show some ((s0 :: t).foldl _ s0) = _
    rw [List.foldl_cons]
    have h0 : (if s0.fuelPrice < s0.fuelPrice then s0 else s0) = s0 := by simp
    rw [h0]
    exact foldl_reduce_eq_lastMin t s0

/-- The first minimum-price occurrence has a price below every list entry. -/
theorem firstMinByPrice_le {l : List FuelStation} {c : FuelStation}
    (h : firstMinByPrice l = some c) : ∀ s ∈ l, c.fuelPrice ≤ s.fuelPrice := by
  induction l generalizing c with
  | nil => simp [firstMinByPrice] at h
  | cons a t ih =>
    intro s hs
    rcases List.mem_cons.mp hs with rfl | hst
    · cases ht : firstMinByPrice t with
      | none => simp only [firstMinByPrice, ht] at h; cases h; exact le_refl _
      | some m =>
        simp only [firstMinByPrice, ht] at h
        split_ifs at h with hlt <;> cases h
        · exact le_of_lt hlt
        · exact le_refl _
    · cases ht : firstMinByPrice t with
      | none =>
        have : t = [] := by
          cases t with
          | nil => rfl
          | cons x u => simp only [firstMinByPrice] at ht; cases hu : firstMinByPrice u <;>
              simp [hu] at ht <;> split_ifs at ht
        subst this; simp at hst
      | some m =>
        simp only [firstMinByPrice, ht] at h
        split_ifs at h with hlt <;> cases h
        · exact ih ht s hst
        · exact le_trans (not_lt.mp hlt) (ih ht s hst)

/-- The last minimum-price occurrence has a price below every list entry. -/
theorem lastMinByPrice_le {l : List FuelStation} {c : FuelStation}
    (h : lastMinByPrice l = some c) : ∀ s ∈ l, c.fuelPrice ≤ s.fuelPrice := by
  induction l generalizing c with
  | nil => simp [lastMinByPrice] at h
  | cons a t ih =>
    intro s hs
    rcases List.mem_cons.mp hs with rfl | hst
    · cases ht : lastMinByPrice t with
      | none => simp only [lastMinByPrice, ht] at h; cases h; exact le_refl _
      | some m =>
        simp only [lastMinByPrice, ht] at h
        split_ifs at h with hlt <;> cases h
        · exact le_refl _
        · exact not_lt.mp hlt
    · cases ht : lastMinByPrice t with
      | none =>
        have : t = [] := by
          cases t with
          | nil => rfl
          | cons x u => simp only [lastMinByPrice] at ht; cases hu : lastMinByPrice u <;>
              simp [hu] at ht <;> split_ifs at ht
        subst this; simp at hst
      | some m =>
        simp only [lastMinByPrice, ht] at h
        split_ifs at h with hlt <;> cases h
        · exact le_trans (le_of_lt hlt) (ih ht s hst)
        · exact ih ht s hst

/-- `firstMinByPrice` returns `none` exactly on the empty list. -/
theorem firstMinByPrice_eq_none_iff (l : List FuelStation) :
    firstMinByPrice l = none ↔ l = [] := by
  cases l with
  | nil => simp [firstMinByPrice]
  | cons a t =>
    simp only [firstMinByPrice]
    cases h : firstMinByPrice t <;> simp <;> split_ifs <;> simp

/-- `lastMinByPrice` returns `none` exactly on the empty list. -/
theorem lastMinByPrice_eq_none_iff (l : List FuelStation) :
    lastMinByPrice l = none ↔ l = [] := by
  cases l with
  | nil => simp [lastMinByPrice]
  | cons a t =>
    simp only [lastMinByPrice]
    cases h : lastMinByPrice t <;> simp <;> split_ifs <;> simp

/-- Claim C4, counterexample: on two distinct stations with the same price,
the `reduce`-based best-price mark of src/index.tsx line 582 selects the
second (last) occurrence, not the first occurrence the claim requires. -/
theorem claim_C4_counterexample :
    cheapestStationReduce [stationP1, stationP2] = some stationP2
    ∧ firstMinByPrice [stationP1, stationP2] = some stationP1
    ∧ stationP2 ≠ stationP1
    ∧ stationP1.fuelPrice = stationP2.fuelPrice := by
  decide

/-- Claim C4 (amended): both best-price selections return an entry of
minimum unit price (independently of the distance order), and return
nothing exactly on an empty list; but on ties the `forEach`-based marker
selects the first occurrence while the `reduce`-based badge selects the
last occurrence. -/
theorem claim_C4_amended (stations : List FuelStation) :
    cheapestStationForEach stations = firstMinByPrice stations
    ∧ cheapestStationReduce stations = lastMinByPrice stations
    ∧ ((cheapestStationForEach stations).all fun c =>
        stations.all fun s => decide (c.fuelPrice ≤ s.fuelPrice)) = true
    ∧ ((cheapestStationReduce stations).all fun c =>
        stations.all fun s => decide (c.fuelPrice ≤ s.fuelPrice)) = true
    ∧ (cheapestStationForEach stations = none ↔ stations = [])
    ∧ (cheapestStationReduce stations = none ↔ stations = []) := by
  refine ⟨cheapestStationForEach_eq stations, cheapestStationReduce_eq stations, ?_, ?_, ?_, ?_⟩
  · rw [cheapestStationForEach_eq]
    cases h : firstMinByPrice stations with
    | none => rfl
    | some c =>
      simp only [Option.all_some, List.all_eq_true, decide_eq_true_eq]
      exact firstMinByPrice_le h
  · rw [cheapestStationReduce_eq]
    cases h : lastMinByPrice stations with
    | none => rfl
    | some c =>
      simp only [Option.all_some, List.all_eq_true, decide_eq_true_eq]
      exact lastMinByPrice_le h
  · rw [cheapestStationForEach_eq]; exact firstMinByPrice_eq_none_iff stations
  · rw [cheapestStationReduce_eq]; exact lastMinByPrice_eq_none_iff stations

/-- The comparator ordering is total. -/
theorem jsLeB_total (a b : Option ℚ) : jsLeB a b = true ∨ jsLeB b a = true := by
  unfold jsLeB
  by_cases ha : distKeyIsInf a = true <;> by_cases hb : distKeyIsInf b = true <;>
    simp [ha, hb, decide_eq_true_eq]
  exact le_total _ _

/-- The comparator ordering is transitive. -/
theorem jsLeB_trans (a b c : Option ℚ) (h1 : jsLeB a b = true) (h2 : jsLeB b c = true) :
    jsLeB a c = true := by
  unfold jsLeB at h1 h2 ⊢
  by_cases ha : distKeyIsInf a = true <;> by_cases hb : distKeyIsInf b = true <;>
    by_cases hc : distKeyIsInf c = true <;>
      simp_all [decide_eq_true_eq]
  exact le_trans h1 h2

instance : IsTotal FuelStation jsLe :=
  ⟨fun a b => jsLeB_total a.distanceKm b.distanceKm⟩

instance : IsTrans FuelStation jsLe :=
  ⟨fun _ _ _ h1 h2 => jsLeB_trans _ _ _ h1 h2⟩

/-- Claim C2, counterexample: with candidates at 0 km, 3 km and 10 km and
the 10 km threshold, the primary path differs from the ranker the claim
describes on two points — the station at exactly 10 km is discarded (the
filter is strict), and the 0 km station is sorted last (its comparator key
is `Infinity`), not first. -/
theorem claim_C2_counterexample :
    primaryStations distZeroThreeTen locO [placeA, placeB, placeC] ≠
      claimRanker distZeroThreeTen 10 locO [placeA, placeB, placeC]
    ∧ primaryStations distZeroThreeTen locO [placeA, placeB, placeC] =
        [toStation distZeroThreeTen locO placeB, toStation distZeroThreeTen locO placeA]
    ∧ claimRanker distZeroThreeTen 10 locO [placeA, placeB, placeC] =
        [toStation distZeroThreeTen locO placeA, toStation distZeroThreeTen locO placeB,
          toStation distZeroThreeTen locO placeC] := by
  decide

/-- Claim C2 (amended): the primary path outputs exactly the candidates
whose computed distance is defined and strictly less than the fixed 10 km
threshold, each with its distance populated, sorted ascending by the
comparator key that treats a distance of exactly 0 as `Infinity`; any two
candidates ordered by that key (in particular key-ties) keep their input
order; the claim's instance — distances [2, 15, 4] with threshold 10 —
yields the 2 km and 4 km stations in the order [2, 4]. -/
theorem claim_C2_amended (dist : Location → Location → ℚ) (destination : Location)
    (results : List PlaceResult) (a b : FuelStation) (hab : jsLe a b)
    (hsub : List.Sublist [a, b]
      ((results.map (toStation dist destination)).filter withinRadius)) :
    (primaryStations dist destination results).Perm
      ((results.map (toStation dist destination)).filter withinRadius)
    ∧ List.Sorted jsLe (primaryStations dist destination results)
    ∧ ((primaryStations dist destination results).all fun s => s.distanceKm.isSome) = true
    ∧ List.Sublist [a, b] (primaryStations dist destination results)
    ∧ primaryStations distTwoFifteenFour locO [placeA, placeB, placeC] =
        [toStation distTwoFifteenFour locO placeA, toStation distTwoFifteenFour locO placeC] := by
  refine ⟨List.perm_insertionSort _ _, List.sorted_insertionSort _ _, ?_,
    List.pair_sublist_insertionSort hab hsub, by decide⟩
  simp only [List.all_eq_true]
  intro s hs
  have hs' : s ∈ (results.map (toStation dist destination)).filter withinRadius :=
    (List.mem_insertionSort _).mp hs
  have hw : withinRadius s = true := List.of_mem_filter hs'
  cases hsk : s.distanceKm with
  | none => unfold withinRadius at hw; rw [hsk] at hw; simp at hw
  | some d => simp [Option.isSome, hsk]

/-- Witness for `claim_C2_amended` on the claim's own [2, 15, 4] instance,
with the 2 km and 4 km stations as the ordered pair. -/
theorem claim_C2_amended_witness :
    (primaryStations distTwoFifteenFour locO [placeA, placeB, placeC]).Perm
      (([placeA, placeB, placeC].map (toStation distTwoFifteenFour locO)).filter withinRadius)
    ∧ List.Sorted jsLe (primaryStations distTwoFifteenFour locO [placeA, placeB, placeC])
    ∧ ((primaryStations distTwoFifteenFour locO [placeA, placeB, placeC]).all fun s =>
        s.distanceKm.isSome) = true
    ∧ List.Sublist
        [toStation distTwoFifteenFour locO placeA, toStation distTwoFifteenFour locO placeC]
        (primaryStations distTwoFifteenFour locO [placeA, placeB, placeC])
    ∧ primaryStations distTwoFifteenFour locO [placeA, placeB, placeC] =
        [toStation distTwoFifteenFour locO placeA, toStation distTwoFifteenFour locO placeC] :=
  claim_C2_amended distTwoFifteenFour locO [placeA, placeB, placeC]
    (toStation distTwoFifteenFour locO placeA) (toStation distTwoFifteenFour locO placeC)
    (by decide) (by decide)

/-- Claim C3, counterexample: with every mock station 12 km away, the
fallback path keeps all six stations, while the primary path's ranking logic
applied to the same mock list discards them all — the fallback applies no
radius filter. -/
theorem claim_C3_counterexample :
    fallbackStations distTwelve locO ≠ rankStations distTwelve locO MOCKED_FUEL_STATIONS
    ∧ (fallbackStations distTwelve locO).length = 6
    ∧ rankStations distTwelve locO MOCKED_FUEL_STATIONS = [] := by
  decide

/-- Claim C3 (amended): for every distance function and destination, the
fallback path keeps all six mock stations (it applies no radius filter), and
its output equals the primary-path ranking logic applied to the mock list
exactly when every mock station's computed distance is strictly below the
10 km threshold. -/
theorem claim_C3_amended (dist : Location → Location → ℚ) (destination : Location) :
    (fallbackStations dist destination).length = MOCKED_FUEL_STATIONS.length
    ∧ (fallbackStations dist destination = rankStations dist destination MOCKED_FUEL_STATIONS ↔
        (MOCKED_FUEL_STATIONS.all fun s =>
          decide (dist destination s.location < 10)) = true) := by
  constructor
  · unfold fallbackStations
    rw [List.length_insertionSort, List.length_map]
  · constructor
    · intro heq
      have h1 : (fallbackStations dist destination).length =
          (MOCKED_FUEL_STATIONS.map fun s =>
            { s with distanceKm := some (dist destination s.location) }).length := by
        unfold fallbackStations
        rw [List.length_insertionSort]
      have h2 : (rankStations dist destination MOCKED_FUEL_STATIONS).length =
          ((MOCKED_FUEL_STATIONS.map fun s =>
            { s with distanceKm := some (dist destination s.location) }).filter
              withinRadius).length := by
        unfold rankStations
        rw [List.length_insertionSort]
      rw [heq, h2] at h1
      have hfil : (MOCKED_FUEL_STATIONS.map fun s =>
          { s with distanceKm := some (dist destination s.location) }).filter withinRadius =
          MOCKED_FUEL_STATIONS.map fun s =>
            { s with distanceKm := some (dist destination s.location) } :=
        List.Sublist.eq_of_length (List.filter_sublist _) h1
      rw [List.all_eq_true]
      intro m hm
      have hmem : ({ m with distanceKm := some (dist destination m.location) } : FuelStation) ∈
          (MOCKED_FUEL_STATIONS.map fun s =>
            { s with distanceKm := some (dist destination s.location) }).filter withinRadius := by
        rw [hfil]
        exact List.mem_map.mpr ⟨m, hm, rfl⟩
      have hw : withinRadius
          ({ m with distanceKm := some (dist destination m.location) } : FuelStation) = true :=
        List.of_mem_filter hmem
      simpa [withinRadius] using hw
    · intro hall
      unfold fallbackStations rankStations
      congr 1
      symm
      apply List.filter_eq_self.mpr
      intro s hs
      rcases List.mem_map.mp hs with ⟨m, hm, rfl⟩
      simp only [List.all_eq_true] at hall
      exact hall m hm

/-- Membership in the key-collection fold: a key is collected iff it is in
the accumulator or in the processed list. -/
theorem mem_foldl_objectKeys (x : String) : ∀ (L ks : List String),
    (x ∈ L.foldl (fun ks k => if k ∈ ks then ks else ks ++ [k]) ks ↔ x ∈ ks ∨ x ∈ L) := by
  intro L
  induction L with
  | nil => intro ks; simp
  | cons a L ih =>
    intro ks
    rw [List.foldl_cons, ih]
    by_cases h : a ∈ ks
    · rw [if_pos h]
      constructor
      · rintro (h1 | h1)
        · exact Or.inl h1
        · exact Or.inr (List.mem_cons_of_mem a h1)
      · rintro (h1 | h1)
        · exact Or.inl h1
        · rcases List.mem_cons.mp h1 with rfl | h1
          · exact Or.inl h
          · exact Or.inr h1
    · rw [if_neg h]
      simp [List.mem_append, List.mem_cons]
      tauto

/-- A key occurs in `objectKeys L` iff it occurs in `L`. -/
theorem mem_objectKeys (x : String) (L : List String) : x ∈ objectKeys L ↔ x ∈ L := by
  unfold objectKeys
  rw [mem_foldl_objectKeys]
  simp

/-- Appending one label extends the key set iff the label is new. -/
theorem objectKeys_append_singleton (L : List String) (k : String) :
    objectKeys (L ++ [k]) =
      if k ∈ objectKeys L then objectKeys L else objectKeys L ++ [k] := by
  unfold objectKeys
  rw [List.foldl_append]
  rfl

/-- The key-collection fold preserves `Nodup`. -/
theorem nodup_foldl_objectKeys : ∀ (L ks : List String),
    ks.Nodup → (L.foldl (fun ks k => if k ∈ ks then ks else ks ++ [k]) ks).Nodup := by
  intro L
  induction L with
  | nil => intro ks h; simpa using h
  | cons a L ih =>
    intro ks h
    rw [List.foldl_cons]
    apply ih
    by_cases hm : a ∈ ks
    · rwa [if_pos hm]
    · rw [if_neg hm]
      simp [List.nodup_append, h, hm]

/-- The collected key set has no duplicate labels. -/
theorem objectKeys_nodup (L : List String) : (objectKeys L).Nodup :=
  nodup_foldl_objectKeys L [] List.nodup_nil

/-- Appending one entry adds its cost to its own label's sum and leaves the
other sums unchanged. -/
theorem sumForLabel_append (ml : String → String) (h : List TripHistoryEntry)
    (t : TripHistoryEntry) (label : String) :
    sumForLabel ml (h ++ [t]) label =
      sumForLabel ml h label + (if ml t.date == label then t.estimatedCost else 0) := by
  unfold sumForLabel
  rw [List.filter_append, List.map_append, List.sum_append]
  congr 1
  by_cases hb : (ml t.date == label) = true
  · simp [List.filter_cons, hb]
  · simp [List.filter_cons, hb]

/-- A label that no entry carries sums to `0`. -/
theorem sumForLabel_eq_zero (ml : String → String) (h : List TripHistoryEntry) (label : String)
    (hnot : label ∉ h.map fun t => ml t.date) : sumForLabel ml h label = 0 := by
  unfold sumForLabel
  have hfil : h.filter (fun t => ml t.date == label) = [] := by
    rw [List.filter_eq_nil_iff]
    intro t ht
    simp only [beq_iff_eq]
    intro heq
    exact hnot (List.mem_map.mpr ⟨t, ht, heq⟩)
  rw [hfil]
  rfl

/-- One appended entry runs one `updateMonthly` step. -/
theorem monthlyDict_append (ml : String → String) (h : List TripHistoryEntry)
    (t : TripHistoryEntry) :
    monthlyDict ml (h ++ [t]) = updateMonthly (monthlyDict ml h) (ml t.date) t.estimatedCost := by
  unfold monthlyDict
  rw [List.foldl_append]
  rfl

/-- Characterisation of the grouping loop: the association list built by
`monthlyDict` pairs every distinct label, in first-insertion order, with the
sum of the costs of the entries carrying it. -/
theorem monthlyDict_eq (ml : String → String) (history : List TripHistoryEntry) :
    monthlyDict ml history =
      (objectKeys (history.map fun t => ml t.date)).map
        (fun l => (l, sumForLabel ml history l)) := by
  induction history using List.reverseRecOn with
  | nil => rfl
  | append_singleton h t ih =>
    rw [monthlyDict_append, ih]
    have hmap : (h ++ [t]).map (fun t' => ml t'.date) =
        (h.map fun t' => ml t'.date) ++ [ml t.date] := by simp
    rw [hmap, objectKeys_append_singleton]
    by_cases hmem : ml t.date ∈ objectKeys (h.map fun t' => ml t'.date)
    · rw [if_pos hmem]
      unfold updateMonthly
      have hany : (((objectKeys (h.map fun t' => ml t'.date)).map
          fun l => (l, sumForLabel ml h l)).any fun p => p.1 == ml t.date) = true := by
        rw [List.any_eq_true]
        exact ⟨(ml t.date, sumForLabel ml h (ml t.date)),
          List.mem_map.mpr ⟨ml t.date, hmem, rfl⟩, by simp⟩
      rw [if_pos hany, List.map_map]
      apply List.map_congr_left
      intro l hl
      by_cases hl2 : l = ml t.date
      · subst hl2
        simp [sumForLabel_append]
      · have hne : ¬ (ml t.date = l) := fun he => hl2 he.symm
        simp [sumForLabel_append, beq_iff_eq, hl2, hne]
    · rw [if_neg hmem]
      unfold updateMonthly
      have hany : (((objectKeys (h.map fun t' => ml t'.date)).map
          fun l => (l, sumForLabel ml h l)).any fun p => p.1 == ml t.date) = false := by
        rw [List.any_eq_false]
        intro p hp
        rcases List.mem_map.mp hp with ⟨l, hl, rfl⟩
        simp only [beq_iff_eq]
        intro heq
        exact hmem (heq ▸ hl)
      rw [if_neg (by simp [hany]), List.map_append]
      congr 1
      · apply List.map_congr_left
        intro l hl
        have hl2 : ¬ (l = ml t.date) := fun he => hmem (he ▸ hl)
        have hne : ¬ (ml t.date = l) := fun he => hl2 he.symm
        simp [sumForLabel_append, beq_iff_eq, hne]
      · have hz : sumForLabel ml h (ml t.date) = 0 :=
          sumForLabel_eq_zero ml h (ml t.date)
            (fun hc => hmem ((mem_objectKeys _ _).mpr hc))
        simp [sumForLabel_append, hz]

/-- Claim C6: the monthly aggregator produces exactly one aggregate per
distinct month+year label (its output months are a permutation of the
duplicate-free, first-insertion-ordered label set), each aggregate's cost is
the sum of the costs of the entries carrying that label, the output is
sorted ascending by the parsed date of the label, and the [Jan 100, Jan 50,
Feb 75] example produces [("Jan 2024", 150), ("Feb 2024", 75)]. -/
theorem claim_C6 (monthLabel : String → String) (parseMonth : String → ℤ)
    (history : List TripHistoryEntry) :
    ((calculateMonthlyExpenses monthLabel parseMonth history).map fun e => e.month).Perm
      (objectKeys (history.map fun t => monthLabel t.date))
    ∧ (objectKeys (history.map fun t => monthLabel t.date)).Nodup
    ∧ List.Sorted (fun a b => parseMonth a.month ≤ parseMonth b.month)
        (calculateMonthlyExpenses monthLabel parseMonth history)
    ∧ ((calculateMonthlyExpenses monthLabel parseMonth history).all fun e =>
        e.cost == sumForLabel monthLabel history e.month) = true
    ∧ calculateMonthlyExpenses exampleMonthLabel exampleParseMonth exampleHistory =
        [{ month := "Jan 2024", cost := 150 }, { month := "Feb 2024", cost := 75 }] := by
  refine ⟨?_, objectKeys_nodup _, ?_, ?_, ?_⟩
  · refine ((List.perm_insertionSort _ _).map _).trans ?_
    have hmaps : (((monthlyDict monthLabel history).map fun p =>
        ({ month := p.1, cost := p.2 } : MonthlyExpense)).map fun e => e.month) =
        objectKeys (history.map fun t => monthLabel t.date) := by
      rw [monthlyDict_eq, List.map_map, List.map_map]
      conv_rhs => rw [← List.map_id (objectKeys (history.map fun t => monthLabel t.date))]
      apply List.map_congr_left
      intro l _
      rfl
    rw [hmaps]
  · letI : IsTotal MonthlyExpense (fun a b => parseMonth a.month ≤ parseMonth b.month) :=
      ⟨fun _ _ => le_total _ _⟩
    letI : IsTrans MonthlyExpense (fun a b => parseMonth a.month ≤ parseMonth b.month) :=
      ⟨fun _ _ _ => le_trans⟩
    exact List.sorted_insertionSort _ _
  · rw [List.all_eq_true]
    intro e he
    have he' : e ∈ (monthlyDict monthLabel history).map fun p =>
        ({ month := p.1, cost := p.2 } : MonthlyExpense) :=
      (List.mem_insertionSort _).mp he
    rw [monthlyDict_eq, List.map_map] at he'
    rcases List.mem_map.mp he' with ⟨l, _, rfl⟩
    simp
  · norm_num [calculateMonthlyExpenses, monthlyDict, updateMonthly, exampleMonthLabel,
      exampleParseMonth, exampleHistory, List.insertionSort, List.orderedInsert]
    decide

/-- `toRad` maps a negated difference to the negated radian value. -/
theorem toRad_sub_comm (p q : ℚ) : toRad (p - q) = -toRad (q - p) := by
  unfold toRad
  push_cast
  ring

/-- The haversine intermediate value is symmetric in its two coordinates. -/
theorem haversineA_symm (loc1 loc2 : Location) : haversineA loc1 loc2 = haversineA loc2 loc1 := by
  unfold haversineA
  rw [toRad_sub_comm loc2.lat loc1.lat, toRad_sub_comm loc2.lng loc1.lng]
  simp only [neg_div, Real.sin_neg]
  ring

/-- `Math.atan2` is non-negative on the closed first quadrant. -/
theorem atan2_nonneg {y x : ℝ} (hy : 0 ≤ y) (hx : 0 ≤ x) : 0 ≤ atan2 y x := by
  unfold atan2
  have hp := Real.pi_pos
  rcases lt_or_eq_of_le hx with hx' | hx'
  · rw [if_pos hx']
    have hq : (0 : ℝ) ≤ y / x := div_nonneg hy (le_of_lt hx')
    have h := Real.arctan_strictMono.monotone hq
    rwa [Real.arctan_zero] at h
  · rw [if_neg (by rw [← hx']; exact lt_irrefl 0),
      if_neg (by rw [← hx']; exact lt_irrefl 0)]
    rcases lt_or_eq_of_le hy with hy' | hy'
    · rw [if_pos hy']
      linarith
    · rw [if_neg (by rw [← hy']; exact lt_irrefl 0),
        if_neg (by rw [← hy']; exact lt_irrefl 0)]

/-- Claim C8: the geo-distance function is symmetric, returns exactly `0` on
identical coordinates, and is always non-negative. -/
theorem claim_C8 (A B : Location) :
    calculateDistance A B = calculateDistance B A
    ∧ calculateDistance A A = 0
    ∧ 0 ≤ calculateDistance A B := by
  refine ⟨?_, ?_, ?_⟩
  · unfold calculateDistance
    rw [haversineA_symm]
  · have h0 : toRad 0 = 0 := by unfold toRad; norm_num
    have hA : haversineA A A = 0 := by
      unfold haversineA
      rw [sub_self, sub_self, h0]
      norm_num
    unfold calculateDistance
    rw [hA]
    norm_num [Real.sqrt_zero, Real.sqrt_one, atan2, Real.arctan_zero]
  · have hnn := atan2_nonneg (Real.sqrt_nonneg (haversineA A B))
      (Real.sqrt_nonneg (1 - haversineA A B))
    unfold calculateDistance
    linarith

end SmartFuel
